import Mathlib

/-
Verification of the polls persistence layer of the `ivcp/polls` repository
against its specification.

The embedding models the PostgreSQL-backed store of
`src/internal/data/polls.go` as explicit state passing over a `DB` record
that mirrors the four tables (polls, poll_options, tokens, ips — the last
from `src/migrations/00004_ips.sql`).  Each Go method of `PollModel`
becomes a Lean function from the current `DB` (plus the values the
database engine supplies: fresh ids, NOW(), the rows a query returns) to
the new `DB` and an `Except` result.  `time.Time` values are modelled as
`Nat` timestamps; the sha256 digest is an abstract `List Nat` value
produced by a hash-function parameter.  Storage-level failures are only
modelled where a claim depends on them (statement-failure injection in
`Insert`); read operations are modelled on the failure-free path.
-/

namespace Polls

/-- One row of the `polls` table as selected by the queries in
`src/internal/data/polls.go` (id, question, description, created_at,
updated_at, expires_at, results_visibility, is_private). -/
structure PollRow where
  id : String
  question : String
  description : String
  createdAt : Nat
  updatedAt : Nat
  expiresAt : Nat
  resultsVisibility : String
  isPrivate : Bool
deriving Repr, DecidableEq

/-- One row of the `poll_options` table (id, poll_id, value, position,
vote_count). -/
structure OptionRow where
  id : String
  pollId : String
  value : String
  position : Int
  voteCount : Nat
deriving Repr, DecidableEq

/-- One row of the `tokens` table (hash, poll_id); the hash is the sha256
digest stored as an abstract byte-list value. -/
structure TokenRow where
  hash : List Nat
  pollId : String
deriving Repr, DecidableEq

/-- One row of the `ips` table from `src/migrations/00004_ips.sql`:
`ip inet UNIQUE NOT NULL, poll_id ... REFERENCES polls (id)`.  Note the
UNIQUE constraint is declared on the `ip` column alone, not on the
(poll_id, ip) pair. -/
structure IpRow where
  ip : String
  pollId : String
deriving Repr, DecidableEq

/-- The visible database state: the four tables the data layer touches. -/
structure DB where
  polls : List PollRow
  pollOptions : List OptionRow
  tokens : List TokenRow
  ips : List IpRow
deriving Repr, DecidableEq

/-- The Go struct `data.PollOption`. -/
structure PollOption where
  id : String
  value : String
  position : Int
  voteCount : Nat
deriving Repr, DecidableEq

/-- The Go struct `data.Poll` (`ExpiresAt` flattened to its wrapped time). -/
structure Poll where
  id : String
  question : String
  description : String
  options : List PollOption
  createdAt : Nat
  updatedAt : Nat
  expiresAt : Nat
  resultsVisibility : String
  isPrivate : Bool
  token : String
deriving Repr, DecidableEq

/-- The error values the data layer can surface: `data.ErrRecordNotFound`,
the driver error `pgx.ErrNoRows` (a distinct value — `CheckToken` in
`polls.go` explicitly maps the latter to the former), a unique-constraint
violation surfaced as the Conflict kind, and wrapped storage errors
(`fmt.Errorf("...: %w", err)`) identified by their message prefix. -/
inductive DBError where
  | errRecordNotFound
  | pgxErrNoRows
  | conflict
  | storage (msg : String)
deriving Repr, DecidableEq

/-- Whether an `Except` result is a success. -/
def resultOk {α : Type} : Except DBError α → Bool
  | .ok _ => true
  | .error _ => false

/-- The rows returned by `Get`'s SQL query
`SELECT ... FROM polls p JOIN poll_options po ON po.poll_id = p.id
WHERE p.id = $1` — the query has no ORDER BY clause, so the rows come
back in whatever order the storage engine produces them; the embedding
takes the stored list order as that order. -/
def joinRows (db : DB) (id : String) : List (PollRow × OptionRow) :=
  (db.polls.filter (fun p => p.id = id)).flatMap
    (fun p => (db.pollOptions.filter (fun o => o.pollId = p.id)).map (fun o => (p, o)))

/-- How both read queries materialise an option: only id, value and
position are selected, so the Go `VoteCount` field keeps its zero value. -/
def optionFromRow (o : OptionRow) : PollOption :=
  { id := o.id, value := o.value, position := o.position, voteCount := 0 }

namespace PollModel

/-- `PollModel.Get` from `src/internal/data/polls.go`: an empty id short
circuits to `ErrRecordNotFound`; otherwise the poll fields are scanned
from the first joined row, the options from every row in returned-row
order, and a result with zero option rows is `ErrRecordNotFound`. -/
def Get (db : DB) (id : String) : Except DBError Poll :=
  if id = "" then .error .errRecordNotFound
  else
    match joinRows db id with
    | [] => .error .errRecordNotFound
    | (p, _) :: _ =>
        .ok { id := p.id
              question := p.question
              description := p.description
              options := (joinRows db id).map (fun r => optionFromRow r.2)
              createdAt := p.createdAt
              updatedAt := p.updatedAt
              expiresAt := p.expiresAt
              resultsVisibility := p.resultsVisibility
              isPrivate := p.isPrivate
              token := "" }

end PollModel

/-- A poll row used in the concrete examples. -/
def exampleRow : PollRow :=
  { id := "p1", question := "Favourite colour?", description := ""
    createdAt := 5, updatedAt := 5, expiresAt := 0
    resultsVisibility := "always", isPrivate := false }

/-- A database whose stored option order for poll `p1` is position 2
before position 1. -/
def exampleUnsortedDB : DB :=
  { polls := [exampleRow]
    pollOptions := [⟨"o2", "p1", "Blue", 2, 0⟩, ⟨"o1", "p1", "Red", 1, 0⟩]
    tokens := [], ips := [] }

/-- C4: refuted at a concrete state — `Get` has no ORDER BY and preserves
the query's row order, so a store holding the options of `p1` with
positions [2, 1] yields an options list whose positions are [2, 1],
which is not ascending. -/
theorem get_unsorted_options_counterexample :
    (PollModel.Get exampleUnsortedDB "p1").map (fun p => p.options.map (fun o => o.position))
      = .ok [2, 1]
    ∧ ¬ List.Pairwise (fun a b => a ≤ b) ([2, 1] : List Int) := by
  refine ⟨rfl, ?_⟩
  decide

/-- C4 (amended): `Get` returns the options exactly in the order of the
rows the underlying join query produced, with no sorting by position. -/
theorem get_options_follow_query_row_order (db : DB) (id : String) (poll : Poll)
    (h : PollModel.Get db id = .ok poll) :
    poll.options = (joinRows db id).map (fun r => optionFromRow r.2) := by
  unfold PollModel.Get at h
  by_cases hid : id = ""
  · simp [hid] at h
  · simp only [hid, if_false] at h
    cases hrows : joinRows db id with
    | nil => rw [hrows] at h; exact absurd h (by simp)
    | cons hd tl =>
        rw [hrows] at h
        obtain ⟨p, o⟩ := hd
        simp only [Except.ok.injEq] at h
        subst h
        simp [hrows]

/-- C4 witness: the amended theorem applied at the concrete state above. -/
theorem get_options_follow_query_row_order_witness :
    (PollModel.Get exampleUnsortedDB "p1").toOption.map Poll.options
      = some ((joinRows exampleUnsortedDB "p1").map (fun r => optionFromRow r.2)) := by
  have h : PollModel.Get exampleUnsortedDB "p1"
      = .ok { id := "p1", question := "Favourite colour?", description := ""
              options := [⟨"o2", "Blue", 2, 0⟩, ⟨"o1", "Red", 1, 0⟩]
              createdAt := 5, updatedAt := 5, expiresAt := 0
              resultsVisibility := "always", isPrivate := false, token := "" } := by rfl
  rw [h, ← get_options_follow_query_row_order exampleUnsortedDB "p1" _ h]
  rfl

/-- Membership in the rows of `Get`'s join query. -/
theorem mem_joinRows (db : DB) (id : String) (p : PollRow) (o : OptionRow) :
    (p, o) ∈ joinRows db id ↔
      p ∈ db.polls ∧ p.id = id ∧ o ∈ db.pollOptions ∧ o.pollId = p.id := by
  simp only [joinRows, List.mem_flatMap, List.mem_map, List.mem_filter,
    decide_eq_true_eq]
  constructor
  · rintro ⟨q, ⟨hq, hqid⟩, o2, ⟨ho, hoid⟩, heq⟩
    cases heq
    exact ⟨hq, hqid, ho, hoid⟩
  · rintro ⟨hp, hpid, ho, hoid⟩
    exact ⟨p, ⟨hp, hpid⟩, o, ⟨ho, hoid⟩, rfl⟩

/-- The join query returns no rows exactly when no poll row has the id or
no option row references it. -/
theorem joinRows_eq_nil_iff (db : DB) (id : String) :
    joinRows db id = [] ↔
      (∀ p ∈ db.polls, p.id ≠ id) ∨ (∀ o ∈ db.pollOptions, o.pollId ≠ id) := by
  constructor
  · intro h
    by_cases hp : ∀ p ∈ db.polls, p.id ≠ id
    · exact Or.inl hp
    · push_neg at hp
      obtain ⟨p, hpmem, hpid⟩ := hp
      refine Or.inr fun o homem hoid => ?_
      have : (p, o) ∈ joinRows db id :=
        (mem_joinRows db id p o).mpr ⟨hpmem, hpid, homem, by rw [hoid, hpid]⟩
      rw [h] at this
      exact absurd this (List.not_mem_nil _)
  · intro h
    cases hrows : joinRows db id with
    | nil => rfl
    | cons hd tl =>
        obtain ⟨p, o⟩ := hd
        have hmem : (p, o) ∈ joinRows db id := by rw [hrows]; exact List.mem_cons_self _ _
        obtain ⟨hpmem, hpid, homem, hoid⟩ := (mem_joinRows db id p o).mp hmem
        cases h with
        | inl h => exact absurd hpid (h p hpmem)
        | inr h => exact absurd (hoid.trans hpid) (h o homem)

/-- `Get` returns `ErrRecordNotFound` exactly when the id is empty or the
join query returns no rows. -/
theorem get_eq_notFound_iff (db : DB) (id : String) :
    PollModel.Get db id = .error .errRecordNotFound ↔ id = "" ∨ joinRows db id = [] := by
  unfold PollModel.Get
  by_cases hid : id = ""
  · simp [hid]
  · simp only [hid, if_false]
    cases hrows : joinRows db id with
    | nil => simp [hid]
    | cons hd tl => obtain ⟨p, o⟩ := hd; simp [hid]

/-- C7: `Get` fails with `ErrRecordNotFound` exactly when the id is the
empty string, matches no poll row, or has no option rows referencing it
(covering absent and option-less polls; a malformed id matches no stored
row); and `ErrRecordNotFound` is the only error `Get` produces. -/
theorem get_notFound_exactly_when_absent (db : DB) (id : String) :
    (PollModel.Get db id = .error .errRecordNotFound ↔
      id = "" ∨ (∀ p ∈ db.polls, p.id ≠ id) ∨ (∀ o ∈ db.pollOptions, o.pollId ≠ id))
    ∧ (∀ e, PollModel.Get db id = .error e → e = .errRecordNotFound) := by
  constructor
  · rw [get_eq_notFound_iff, joinRows_eq_nil_iff]
  · intro e he
    unfold PollModel.Get at he
    by_cases hid : id = ""
    · simp only [hid, if_true] at he
      exact (Except.error.inj he).symm
    · simp only [hid, if_false] at he
      cases hrows : joinRows db id with
      | nil =>
          rw [hrows] at he
          exact (Except.error.inj he).symm
      | cons hd tl =>
          obtain ⟨p, o⟩ := hd
          rw [hrows] at he
          exact absurd he (by simp)

/-- C7 witness: at the concrete state, a missing id is `ErrRecordNotFound`. -/
theorem get_notFound_exactly_when_absent_witness :
    PollModel.Get exampleUnsortedDB "p9" = .error .errRecordNotFound :=
  (get_notFound_exactly_when_absent exampleUnsortedDB "p9").1.mpr
    (Or.inr (Or.inl (by decide)))

/-- The row transformation performed by `Update`'s SQL statement
`UPDATE polls SET question = $1, description = $2, expires_at = $3,
updated_at = NOW() WHERE id = $4`. -/
def updatePollRow (poll : Poll) (now : Nat) (r : PollRow) : PollRow :=
  if r.id = poll.id then
    { r with question := poll.question, description := poll.description
             expiresAt := poll.expiresAt, updatedAt := now }
  else r

/-- `PollModel.Update` from `src/internal/data/polls.go`: one UPDATE
statement with `RETURNING updated_at` read back through
`QueryRow(...).Scan`.  When the id matches no row, `Scan` yields the raw
driver error `pgx.ErrNoRows`, and `Update` returns it as is — it is the
only method of the file that does not map that error to
`ErrRecordNotFound`. -/
def PollModel.Update (db : DB) (poll : Poll) (now : Nat) : DB × Except DBError Nat :=
  let db2 : DB := { db with polls := db.polls.map (updatePollRow poll now) }
  if db.polls.any (fun r => r.id = poll.id) then (db2, .ok now)
  else (db2, .error .pgxErrNoRows)

/-- The poll value used as the concrete `Update` argument whose id matches
no stored row. -/
def missingPoll : Poll :=
  { id := "p9", question := "New question?", description := "d", options := []
    createdAt := 0, updatedAt := 0, expiresAt := 0
    resultsVisibility := "always", isPrivate := false, token := "" }

/-- C5: evaluated at a concrete state with no matching row, `Update`
returns the unmapped driver error `pgx.ErrNoRows`, which is a different
error value than `ErrRecordNotFound`. -/
theorem update_missing_id_returns_driver_no_rows :
    (PollModel.Update exampleUnsortedDB missingPoll 7).2 = .error .pgxErrNoRows
    ∧ DBError.pgxErrNoRows ≠ DBError.errRecordNotFound := by
  exact ⟨rfl, by decide⟩

/-- The new database state after `Update` is the row-wise transformation,
whether or not a row matched. -/
theorem update_fst (db : DB) (poll : Poll) (now : Nat) :
    (PollModel.Update db poll now).1
      = { db with polls := db.polls.map (updatePollRow poll now) } := by
  unfold PollModel.Update
  split <;> rfl

/-- C9: a successful `Update` leaves the option rows (hence the vote
tallies), token rows and ip rows untouched, preserves every poll row's id
and created_at, keeps rows with other ids identical, and rewrites the
matching row to carry exactly the new question, description and expiry
with updated_at recomputed. -/
theorem update_frame_only_mutable_fields (db : DB) (poll : Poll) (now : Nat)
    (hok : resultOk (PollModel.Update db poll now).2 = true) :
    (PollModel.Update db poll now).1.pollOptions = db.pollOptions
    ∧ (PollModel.Update db poll now).1.tokens = db.tokens
    ∧ (PollModel.Update db poll now).1.ips = db.ips
    ∧ (PollModel.Update db poll now).1.polls.map PollRow.id = db.polls.map PollRow.id
    ∧ (PollModel.Update db poll now).1.polls.map PollRow.createdAt
        = db.polls.map PollRow.createdAt
    ∧ (∀ r ∈ db.polls, r.id ≠ poll.id → r ∈ (PollModel.Update db poll now).1.polls)
    ∧ (∀ r ∈ db.polls, r.id = poll.id →
        ({ r with question := poll.question, description := poll.description
                  expiresAt := poll.expiresAt, updatedAt := now } : PollRow)
          ∈ (PollModel.Update db poll now).1.polls) := by
  rw [update_fst]
  refine ⟨rfl, rfl, rfl, ?_, ?_, ?_, ?_⟩
  · rw [List.map_map]
    refine List.map_congr_left fun r _ => ?_
    unfold updatePollRow
    simp only [Function.comp_apply]
    split <;> rfl
  · rw [List.map_map]
    refine List.map_congr_left fun r _ => ?_
    unfold updatePollRow
    simp only [Function.comp_apply]
    split <;> rfl
  · intro r hr hne
    have : updatePollRow poll now r = r := by
      unfold updatePollRow
      simp [hne]
    exact this ▸ List.mem_map_of_mem (updatePollRow poll now) hr
  · intro r hr heq
    have : updatePollRow poll now r
        = { r with question := poll.question, description := poll.description
                   expiresAt := poll.expiresAt, updatedAt := now } := by
      unfold updatePollRow
      simp [heq]
    exact this ▸ List.mem_map_of_mem (updatePollRow poll now) hr

/-- C9 witness: the frame theorem applied at a concrete successful update
of poll `p1`. -/
theorem update_frame_only_mutable_fields_witness :
    (PollModel.Update exampleUnsortedDB { missingPoll with id := "p1" } 9).1.pollOptions
      = exampleUnsortedDB.pollOptions :=
  (update_frame_only_mutable_fields exampleUnsortedDB { missingPoll with id := "p1" } 9
    (by rfl)).1

/-- `PollModel.Insert` from `src/internal/data/polls.go`: three separate
statements, each committed on its own — the poll INSERT with
`RETURNING id, created_at, updated_at`, one multi-row INSERT for all the
options with `RETURNING id`, and the token INSERT.  No transaction wraps
them.  The values the database engine supplies (fresh ids, NOW()) and the
success of each statement are parameters; a failed statement leaves
everything the earlier statements wrote in place. -/
def PollModel.Insert (db : DB) (poll : Poll) (tokenHash : List Nat)
    (newId : String) (optIds : List String) (now : Nat)
    (pollStmtOk optionsStmtOk tokenStmtOk : Bool) : DB × Except DBError Poll :=
  if pollStmtOk = false then (db, .error (.storage "insert poll"))
  else
    let db1 : DB := { db with polls := db.polls ++
      [{ id := newId, question := poll.question, description := poll.description
         createdAt := now, updatedAt := now, expiresAt := poll.expiresAt
         resultsVisibility := poll.resultsVisibility, isPrivate := poll.isPrivate }] }
    if optionsStmtOk = false then (db1, .error (.storage "insert poll options"))
    else
      let optRows : List OptionRow := (poll.options.zip optIds).map
        (fun po => { id := po.2, pollId := newId, value := po.1.value
                     position := po.1.position, voteCount := po.1.voteCount })
      let db2 : DB := { db1 with pollOptions := db1.pollOptions ++ optRows }
      if tokenStmtOk = false then (db2, .error (.storage "insert token"))
      else
        let db3 : DB := { db2 with tokens := db2.tokens ++ [⟨tokenHash, newId⟩] }
        (db3, .ok { poll with
                    id := newId,
                    createdAt := now,
                    updatedAt := now,
                    options := (poll.options.zip optIds).map
                      (fun po => { po.1 with id := po.2 }) })

/-- The creation input used for the concrete non-atomicity run. -/
def newPoll : Poll :=
  { id := "", question := "Tea or coffee?", description := ""
    options := [⟨"", "Tea", 0, 0⟩, ⟨"", "Coffee", 1, 0⟩]
    createdAt := 0, updatedAt := 0, expiresAt := 0
    resultsVisibility := "always", isPrivate := false, token := "" }

/-- The empty database state. -/
def emptyDB : DB := ⟨[], [], [], []⟩

/-- C1: refuting evidence — `Insert` runs its three statements without a
transaction.  At a concrete input where the token INSERT fails after the
poll and option rows were written, `Insert` reports an error yet the new
poll is fully visible to a subsequent `Get`; and where the options INSERT
fails, the poll row itself stays behind in the polls table. -/
theorem insert_not_atomic_poll_row_visible :
    resultOk (PollModel.Insert emptyDB newPoll [1, 2] "p1" ["o1", "o2"] 3
        true true false).2 = false
    ∧ resultOk (PollModel.Get
        (PollModel.Insert emptyDB newPoll [1, 2] "p1" ["o1", "o2"] 3
          true true false).1 "p1") = true
    ∧ (PollModel.Insert emptyDB newPoll [1, 2] "p1" ["o1", "o2"] 3
        true false true).1.polls.map PollRow.id = ["p1"]
    ∧ resultOk (PollModel.Insert emptyDB newPoll [1, 2] "p1" ["o1", "o2"] 3
        true false true).2 = false := by
  exact ⟨rfl, rfl, rfl, rfl⟩

/-- The per-row effect of the vote UPDATE statement. -/
def incVote (optionID : String) (o : OptionRow) : OptionRow :=
  if o.id = optionID then { o with voteCount := o.voteCount + 1 } else o

/-- Modelled from the spec (§4.3, §5): `PollOptionModel.Vote` executes the
single atomic statement
`UPDATE poll_options SET vote_count = vote_count + 1 WHERE id = $1` and
fails with `ErrRecordNotFound` when no row matched; the file defining
`PollOptionModel` is not under `src/` (only its integration test
`db_test.go` is).  Statement atomicity makes every concurrent execution
equivalent to some serial order of the individual increments. -/
def voteStep (db : DB) (optionID : String) : DB × Except DBError Unit :=
  let db2 : DB := { db with pollOptions := db.pollOptions.map (incVote optionID) }
  if db.pollOptions.any (fun o => o.id = optionID) then (db2, .ok ())
  else (db2, .error .errRecordNotFound)

/-- One serialisation of a set of concurrent `Vote` calls: the atomic
increments applied in schedule order. -/
def runVotes (db : DB) (schedule : List String) : DB :=
  schedule.foldl (fun d oid => (voteStep d oid).1) db

/-- The stored vote_count total over the rows carrying the given id (a
primary key makes at most one such row). -/
def optsVoteCount (opts : List OptionRow) (oid : String) : Nat :=
  ((opts.filter (fun o => o.id = oid)).map OptionRow.voteCount).sum

/-- The stored vote count of option `oid`. -/
def voteCountOf (db : DB) (oid : String) : Nat := optsVoteCount db.pollOptions oid

/-- The state after a vote is the row-wise increment, whether or not a
row matched. -/
theorem voteStep_fst (db : DB) (x : String) :
    (voteStep db x).1 = { db with pollOptions := db.pollOptions.map (incVote x) } := by
  unfold voteStep
  split <;> rfl

/-- A vote keeps every row's id, so it commutes with filtering by id. -/
theorem filter_map_incVote (opts : List OptionRow) (x oid : String) :
    (opts.map (incVote x)).filter (fun o => o.id = oid)
      = (opts.filter (fun o => o.id = oid)).map (incVote x) := by
  induction opts with
  | nil => rfl
  | cons o rest ih =>
      have hid : (incVote x o).id = o.id := by
        unfold incVote
        split <;> rfl
      by_cases ho : o.id = oid
      · simp only [List.map_cons, List.filter_cons, hid, ho, decide_True,
          if_true, ih]
      · simp only [List.map_cons, List.filter_cons, hid, ho, decide_False,
          Bool.false_eq_true, if_false, ih]

/-- Voting for a different id leaves the stored count of `oid` unchanged. -/
theorem optsVoteCount_incVote_ne (opts : List OptionRow) (x oid : String)
    (hne : x ≠ oid) :
    optsVoteCount (opts.map (incVote x)) oid = optsVoteCount opts oid := by
  unfold optsVoteCount
  rw [filter_map_incVote, List.map_map]
  refine congrArg List.sum (List.map_congr_left fun o homem => ?_)
  have ho : o.id = oid := of_decide_eq_true (List.mem_filter.mp homem).2
  have hox : ¬ o.id = x := fun h => hne (h.symm.trans ho)
  simp only [Function.comp_apply]
  unfold incVote
  simp [hox]

/-- Voting for `oid` itself raises the stored count by the number of rows
carrying that id. -/
theorem optsVoteCount_incVote_self (opts : List OptionRow) (oid : String) :
    optsVoteCount (opts.map (incVote oid)) oid
      = optsVoteCount opts oid + opts.countP (fun o => o.id = oid) := by
  unfold optsVoteCount
  rw [filter_map_incVote, List.map_map]
  have hmap : (opts.filter (fun o => o.id = oid)).map (OptionRow.voteCount ∘ incVote oid)
      = (opts.filter (fun o => o.id = oid)).map (fun o => o.voteCount + 1) := by
    refine List.map_congr_left fun o homem => ?_
    have ho : o.id = oid := of_decide_eq_true (List.mem_filter.mp homem).2
    simp only [Function.comp_apply]
    unfold incVote
    simp [ho]
  rw [hmap, List.countP_eq_length_filter]
  generalize opts.filter (fun o => o.id = oid) = L
  induction L with
  | nil => rfl
  | cons a l ih =>
      simp only [List.map_cons, List.sum_cons, List.length_cons, ih]
      omega

/-- The effect of one vote on the stored count of `oid`. -/
theorem voteCountOf_voteStep (db : DB) (x oid : String) :
    voteCountOf (voteStep db x).1 oid
      = voteCountOf db oid
        + (if x = oid then db.pollOptions.countP (fun o => o.id = oid) else 0) := by
  rw [voteStep_fst]
  by_cases hxo : x = oid
  · subst hxo
    simp only [if_true, voteCountOf]
    exact optsVoteCount_incVote_self db.pollOptions x
  · simp only [hxo, if_false, voteCountOf, Nat.add_zero]
    exact optsVoteCount_incVote_ne db.pollOptions x oid hxo

/-- A vote never changes how many rows carry a given id. -/
theorem countP_map_incVote (opts : List OptionRow) (x oid : String) :
    (opts.map (incVote x)).countP (fun o => o.id = oid)
      = opts.countP (fun o => o.id = oid) := by
  induction opts with
  | nil => rfl
  | cons o rest ih =>
      simp only [List.map_cons, List.countP_cons, ih]
      congr 1
      have hid : (incVote x o).id = o.id := by
        unfold incVote
        split <;> rfl
      rw [hid]

/-- No serialisation of votes changes how many rows carry a given id. -/
theorem countP_runVotes (schedule : List String) :
    ∀ db : DB, ∀ oid : String,
      (runVotes db schedule).pollOptions.countP (fun o => o.id = oid)
        = db.pollOptions.countP (fun o => o.id = oid) := by
  induction schedule with
  | nil => intro db oid; rfl
  | cons s rest ih =>
      intro db oid
      have h1 : runVotes db (s :: rest) = runVotes (voteStep db s).1 rest := rfl
      rw [h1, ih, voteStep_fst]
      exact countP_map_incVote db.pollOptions s oid

/-- A vote on an id carried by some row succeeds. -/
theorem voteStep_ok (db : DB) (oid : String)
    (h : 0 < db.pollOptions.countP (fun o => o.id = oid)) :
    (voteStep db oid).2 = .ok () := by
  obtain ⟨o, ho, hp⟩ := List.countP_pos_iff.mp h
  have hany : db.pollOptions.any (fun o => o.id = oid) = true :=
    List.any_eq_true.mpr ⟨o, ho, hp⟩
  unfold voteStep
  simp [hany]

/-- Every serialisation of the scheduled votes raises the stored count of
`oid` by the number of votes the schedule casts on it. -/
theorem voteCountOf_runVotes (schedule : List String) :
    ∀ db : DB, ∀ oid : String,
      db.pollOptions.countP (fun o => o.id = oid) = 1 →
      voteCountOf (runVotes db schedule) oid
        = voteCountOf db oid + schedule.count oid := by
  induction schedule with
  | nil => intro db oid _; rfl
  | cons s rest ih =>
      intro db oid h
      have h1 : runVotes db (s :: rest) = runVotes (voteStep db s).1 rest := rfl
      have h2 : (voteStep db s).1.pollOptions.countP (fun o => o.id = oid) = 1 := by
        rw [voteStep_fst, countP_map_incVote]
        exact h
      rw [h1, ih _ _ h2, voteCountOf_voteStep, h]
      by_cases hs : s = oid
      · subst hs
        simp only [List.count_cons, beq_self_eq_true, if_true]
        omega
      · have hbeq : (s == oid) = false := beq_eq_false_iff_ne.mpr hs
        simp only [List.count_cons, hbeq, Bool.false_eq_true, if_false, hs]
        omega

/-- C2: with an option id carried by exactly one row (the primary key
invariant), every interleaving of N concurrent `Vote` calls on that
option — serialised in any order, with votes on other options freely
interleaved — raises its stored vote count by exactly the number N of
votes cast on it (no lost updates), and each of those calls succeeds. -/
theorem vote_concurrent_no_lost_updates (db : DB) (oid : String)
    (schedule : List String)
    (huniq : db.pollOptions.countP (fun o => o.id = oid) = 1) :
    voteCountOf (runVotes db schedule) oid
      = voteCountOf db oid + schedule.count oid
    ∧ ∀ s1 s2, schedule = s1 ++ oid :: s2 →
        (voteStep (runVotes db s1) oid).2 = .ok () := by
  refine ⟨voteCountOf_runVotes schedule db oid huniq, ?_⟩
  intro s1 s2 _
  apply voteStep_ok
  rw [countP_runVotes, huniq]
  exact Nat.zero_lt_one

/-- The database state the concrete vote runs start from. -/
def exampleVoteDB : DB :=
  { polls := [exampleRow]
    pollOptions := [⟨"o1", "p1", "Tea", 0, 0⟩, ⟨"o2", "p1", "Coffee", 1, 0⟩]
    tokens := [], ips := [] }

/-- C2 witness: three interleaved votes, two of them on `o1`, leave `o1`
with exactly two more votes. -/
theorem vote_concurrent_no_lost_updates_witness :
    voteCountOf (runVotes exampleVoteDB ["o1", "o2", "o1"]) "o1"
      = voteCountOf exampleVoteDB "o1"
        + (["o1", "o2", "o1"] : List String).count "o1" :=
  (vote_concurrent_no_lost_updates exampleVoteDB "o1" ["o1", "o2", "o1"]
    (by decide)).1

/-- Modelled from the spec (§3, §4.1): the Filters value consumed by
`GetAll`; the file defining it is not under `src/` (only callers and
tests are). -/
structure Filters where
  page : Nat
  pageSize : Nat
  sort : String
  sortSafelist : List String
deriving Repr, DecidableEq

/-- Modelled from the spec (§4.1): `limit()` is the page size. -/
def Filters.limit (f : Filters) : Nat := f.pageSize

/-- Modelled from the spec (§4.1): `offset()` is (page - 1) * pageSize. -/
def Filters.offset (f : Filters) : Nat := (f.page - 1) * f.pageSize

/-- The pagination Metadata value returned beside the listing. -/
structure Metadata where
  currentPage : Nat
  pageSize : Nat
  firstPage : Nat
  lastPage : Nat
  totalRecords : Nat
deriving Repr, DecidableEq

/-- Modelled from the spec (§3, §4.1): `calculateMetadata` is the zero
value when no records match, otherwise lastPage = ceiling(total /
pageSize); its file is not under `src/`. -/
def calculateMetadata (totalRecords page pageSize : Nat) : Metadata :=
  if totalRecords = 0 then ⟨0, 0, 0, 0, 0⟩
  else ⟨page, pageSize, 1, (totalRecords + pageSize - 1) / pageSize, totalRecords⟩

/-- Insertion of an element into an already sorted list under a Boolean
comparator. -/
def insertSorted {α : Type} (le : α → α → Bool) (a : α) : List α → List α
  | [] => [a]
  | b :: l => if le a b then a :: b :: l else b :: insertSorted le a l

/-- Deterministic sort modelling the ORDER BY clause of `GetAll`. -/
def sortRows {α : Type} (le : α → α → Bool) : List α → List α
  | [] => []
  | a :: l => insertSorted le a (sortRows le l)

/-- Inserting just adds the element, up to permutation. -/
theorem insertSorted_perm {α : Type} (le : α → α → Bool) (a : α) (l : List α) :
    List.Perm (insertSorted le a l) (a :: l) := by
  induction l with
  | nil => exact List.Perm.refl _
  | cons b l ih =>
      unfold insertSorted
      split
      · exact List.Perm.refl _
      · exact (List.Perm.cons b ih).trans (List.Perm.swap a b l)

/-- The ORDER BY sort is a permutation of its input. -/
theorem sortRows_perm {α : Type} (le : α → α → Bool) (l : List α) :
    List.Perm (sortRows le l) l := by
  induction l with
  | nil => exact List.Perm.refl _
  | cons a l ih =>
      exact (insertSorted_perm le a (sortRows le l)).trans (List.Perm.cons a ih)

/-- How `GetAll` materialises one result poll from a grouped row:
`is_private` and vote counts are not selected (so the Go zero values
false and 0 remain), and the options come from the jsonb aggregate that
carries only id, value and position. -/
def pollFromGroup (g : PollRow × List OptionRow) : Poll :=
  { id := g.1.id, question := g.1.question, description := g.1.description
    options := g.2.map optionFromRow, createdAt := g.1.createdAt
    updatedAt := g.1.updatedAt, expiresAt := g.1.expiresAt
    resultsVisibility := g.1.resultsVisibility, isPrivate := false, token := "" }

/-- `PollModel.GetAll` from `src/internal/data/polls.go`.  The WHERE
clause keeps polls whose question matches the search text (the postgres
full-text match `to_tsvector @@ plainto_tsquery`, abstracted as the
`tsMatch` parameter) or an empty search text, and requires
`is_private = false`.  The inner join with GROUP BY p.id aggregates each
kept poll's option rows and drops option-less polls; `count(*) OVER()`
counts all groups before LIMIT/OFFSET.  The ORDER BY column and
direction are resolved by the Filters code that is not under `src/`,
abstracted as the `ordLe` comparator, with `id ASC` as tie-break. -/
def PollModel.GetAll (db : DB) (tsMatch : String → String → Bool)
    (ordLe : PollRow → PollRow → Bool) (search : String) (filters : Filters) :
    List Poll × Metadata :=
  let rowsKept := db.polls.filter
    (fun p => (tsMatch p.question search || search = "") && p.isPrivate = false)
  let groups := (rowsKept.map
      (fun p => (p, db.pollOptions.filter (fun o => o.pollId = p.id)))).filter
    (fun g => !g.2.isEmpty)
  let sorted := sortRows (fun a b =>
    if ordLe a.1 b.1 == ordLe b.1 a.1 then a.1.id ≤ b.1.id else ordLe a.1 b.1) groups
  let pageRows := (sorted.drop filters.offset).take filters.limit
  (pageRows.map pollFromGroup,
   calculateMetadata groups.length filters.page filters.pageSize)

/-- Every poll `GetAll` returns stems from a stored poll row that passed
the WHERE clause: a public row whose options were aggregated. -/
theorem getAll_mem_source (db : DB) (tsMatch : String → String → Bool)
    (ordLe : PollRow → PollRow → Bool) (search : String) (filters : Filters)
    (p : Poll) (hp : p ∈ (PollModel.GetAll db tsMatch ordLe search filters).1) :
    ∃ q ∈ db.polls, q.isPrivate = false ∧ p.id = q.id
      ∧ p.options = (db.pollOptions.filter (fun o => o.pollId = q.id)).map
          optionFromRow := by
  simp only [PollModel.GetAll] at hp
  obtain ⟨g, hg, hgp⟩ := List.mem_map.mp hp
  have hg1 := List.mem_of_mem_take hg
  have hg2 := List.mem_of_mem_drop hg1
  have hg3 := (sortRows_perm _ _).mem_iff.mp hg2
  have hg4 := (List.mem_filter.mp hg3).1
  obtain ⟨q, hq, hqg⟩ := List.mem_map.mp hg4
  have hq1 := List.mem_filter.mp hq
  have hpub : q.isPrivate = false := by
    have := hq1.2
    simp only [Bool.and_eq_true, decide_eq_true_eq] at this
    exact this.2
  refine ⟨q, hq1.1, hpub, ?_, ?_⟩
  · rw [← hgp, ← hqg]
    rfl
  · rw [← hgp, ← hqg]
    rfl

/-- C6: no poll whose private flag is set ever appears in the `GetAll`
result list — for every search text, text-match predicate, sort
comparator and filter setting, a returned poll never carries the id of a
private row (poll ids are assumed pairwise distinct, the primary-key
invariant). -/
theorem getAll_excludes_private_polls (db : DB) (tsMatch : String → String → Bool)
    (ordLe : PollRow → PollRow → Bool) (search : String) (filters : Filters)
    (hnd : (db.polls.map PollRow.id).Nodup)
    (row : PollRow) (hrow : row ∈ db.polls) (hpriv : row.isPrivate = true)
    (p : Poll) (hp : p ∈ (PollModel.GetAll db tsMatch ordLe search filters).1) :
    p.id ≠ row.id := by
  obtain ⟨q, hq, hpub, hid, _⟩ :=
    getAll_mem_source db tsMatch ordLe search filters p hp
  intro hcontra
  have hqrow : q = row :=
    List.inj_on_of_nodup_map hnd hq hrow (hid ▸ hcontra)
  rw [hqrow, hpriv] at hpub
  exact Bool.noConfusion hpub

/-- A database holding one public and one private poll, each with one
option, used for the listing examples. -/
def exampleListDB : DB :=
  { polls := [exampleRow,
      { id := "p2", question := "Secret?", description := ""
        createdAt := 6, updatedAt := 6, expiresAt := 0
        resultsVisibility := "always", isPrivate := true }]
    pollOptions := [⟨"o1", "p1", "Red", 1, 0⟩, ⟨"o9", "p2", "Hush", 1, 0⟩]
    tokens := [], ips := [] }

/-- C6 witness: at the concrete state, the poll returned by an
unrestricted listing does not carry the private poll's id. -/
theorem getAll_excludes_private_polls_witness :
    (pollFromGroup (exampleRow, [⟨"o1", "p1", "Red", 1, 0⟩])).id ≠ "p2" :=
  getAll_excludes_private_polls exampleListDB (fun _ _ => false)
    (fun a b => a.createdAt ≤ b.createdAt) "" ⟨1, 20, "created_at", []⟩
    (by decide)
    { id := "p2", question := "Secret?", description := ""
      createdAt := 6, updatedAt := 6, expiresAt := 0
      resultsVisibility := "always", isPrivate := true }
    (by decide) (by decide)
    (pollFromGroup (exampleRow, [⟨"o1", "p1", "Red", 1, 0⟩]))
    (by decide)

/-- `PollModel.CheckToken` from `src/internal/data/polls.go`: hashes the
plaintext (crypto/sha256, abstracted as the `hashFn` parameter), runs
`SELECT poll_id FROM tokens WHERE hash = $1` through `QueryRow`, and maps
the driver's no-rows error to `ErrRecordNotFound`. -/
def PollModel.CheckToken (hashFn : String → List Nat) (db : DB)
    (tokenPlaintext : String) : Except DBError String :=
  match db.tokens.find? (fun t => t.hash = hashFn tokenPlaintext) with
  | none => .error .errRecordNotFound
  | some t => .ok t.pollId

/-- C8: any two plaintexts neither of whose hashes matches a stored token
row — a wrong token for an existing poll just as much as a token that was
never issued — fail with literally the same `ErrRecordNotFound` result,
so the outcome reveals no distinction between the two. -/
theorem checkToken_uniform_notFound (hashFn : String → List Nat) (db : DB)
    (t1 t2 : String)
    (h1 : ∀ r ∈ db.tokens, r.hash ≠ hashFn t1)
    (h2 : ∀ r ∈ db.tokens, r.hash ≠ hashFn t2) :
    PollModel.CheckToken hashFn db t1 = .error .errRecordNotFound
    ∧ PollModel.CheckToken hashFn db t1 = PollModel.CheckToken hashFn db t2 := by
  have f1 : db.tokens.find? (fun t => t.hash = hashFn t1) = none := by
    rw [List.find?_eq_none]
    intro r hr
    simpa using h1 r hr
  have f2 : db.tokens.find? (fun t => t.hash = hashFn t2) = none := by
    rw [List.find?_eq_none]
    intro r hr
    simpa using h2 r hr
  unfold PollModel.CheckToken
  rw [f1, f2]
  exact ⟨rfl, rfl⟩

/-- A database holding one token row for poll `p1`, whose stored hash is
the digest of a 99-character secret under the length-digest used as the
concrete stand-in hash. -/
def exampleTokenDB : DB :=
  { polls := [exampleRow]
    pollOptions := [⟨"o1", "p1", "Red", 1, 0⟩]
    tokens := [⟨[99], "p1"⟩], ips := [] }

/-- C8 witness: the wrong plaintext "wrong" for the existing poll fails
with `ErrRecordNotFound`, identically to the never-issued "unknown". -/
theorem checkToken_uniform_notFound_witness :
    PollModel.CheckToken (fun s => [s.length]) exampleTokenDB "wrong"
      = .error .errRecordNotFound :=
  (checkToken_uniform_notFound (fun s => [s.length]) exampleTokenDB
    "wrong" "unknown" (by decide) (by decide)).1

/-- Modelled from the spec (§4.4): `RecordVote(pollID, address)` inserts
one row into the ips table and surfaces a unique-constraint violation as
the `Conflict` error; the Go function is not under `src/`.  The
uniqueness it runs into is the one declared in
`src/migrations/00004_ips.sql`, which makes the `ip` column alone UNIQUE
rather than the (poll_id, ip) pair. -/
def recordVote (db : DB) (pollID addr : String) : DB × Except DBError Unit :=
  if db.ips.any (fun r => r.ip = addr) then (db, .error .conflict)
  else ({ db with ips := db.ips ++ [⟨addr, pollID⟩] }, .ok ())

/-- A database holding two polls and no recorded voters. -/
def exampleTwoPollDB : DB :=
  { polls := [exampleRow,
      { id := "p2", question := "Second?", description := ""
        createdAt := 6, updatedAt := 6, expiresAt := 0
        resultsVisibility := "always", isPrivate := false }]
    pollOptions := [⟨"o1", "p1", "Red", 1, 0⟩, ⟨"o3", "p2", "Yes", 1, 0⟩]
    tokens := [], ips := [] }

/-- C3: evaluated at concrete inputs.  After recording (p1, 203.0.113.7),
recording the same pair again fails with `Conflict` and a different
address on p1 succeeds — as the claim states — but recording the same
address on the other poll p2 also fails with `Conflict`, because the
schema's UNIQUE constraint covers the ip column alone rather than the
(poll identifier, voter address) pair. -/
theorem recordVote_same_ip_other_poll_conflicts :
    (recordVote exampleTwoPollDB "p1" "203.0.113.7").2 = .ok ()
    ∧ (recordVote (recordVote exampleTwoPollDB "p1" "203.0.113.7").1 "p1"
        "203.0.113.7").2 = .error .conflict
    ∧ (recordVote (recordVote exampleTwoPollDB "p1" "203.0.113.7").1 "p1"
        "198.51.100.9").2 = .ok ()
    ∧ (recordVote (recordVote exampleTwoPollDB "p1" "203.0.113.7").1 "p2"
        "203.0.113.7").2 = .error .conflict := by
  exact ⟨rfl, rfl, rfl, rfl⟩

/-- C10: neither read operation selects the vote_count column, so every
option of every poll returned by `Get` or by `GetAll` carries vote count
0 in the returned structure, whatever the stored tallies are. -/
theorem read_models_vote_count_zero :
    (∀ db id poll, PollModel.Get db id = .ok poll →
       poll.options.all (fun o => o.voteCount = 0) = true)
    ∧ (∀ db tsMatch ordLe search filters poll,
         poll ∈ (PollModel.GetAll db tsMatch ordLe search filters).1 →
         poll.options.all (fun o => o.voteCount = 0) = true) := by
  constructor
  · intro db id poll h
    rw [get_options_follow_query_row_order db id poll h, List.all_eq_true]
    intro o ho
    obtain ⟨r, _, hr⟩ := List.mem_map.mp ho
    rw [← hr]
    exact decide_eq_true rfl
  · intro db tsMatch ordLe search filters poll hp
    obtain ⟨q, _, _, _, hopts⟩ :=
      getAll_mem_source db tsMatch ordLe search filters poll hp
    rw [hopts, List.all_eq_true]
    intro o ho
    obtain ⟨r, _, hr⟩ := List.mem_map.mp ho
    rw [← hr]
    exact decide_eq_true rfl

/-- A stored tally of 7 votes on option `o2` of poll `p1`. -/
def exampleTallyDB : DB :=
  { polls := [exampleRow]
    pollOptions := [⟨"o2", "p1", "Blue", 2, 7⟩]
    tokens := [], ips := [] }

/-- C10 witness: `Get` on a store whose only option has 7 recorded votes
still returns every option with vote count 0. -/
theorem read_models_vote_count_zero_witness :
    ([⟨"o2", "Blue", 2, 0⟩] : List PollOption).all (fun o => o.voteCount = 0) = true :=
  read_models_vote_count_zero.1 exampleTallyDB "p1"
    { id := "p1", question := "Favourite colour?", description := ""
      options := [⟨"o2", "Blue", 2, 0⟩]
      createdAt := 5, updatedAt := 5, expiresAt := 0
      resultsVisibility := "always", isPrivate := false, token := "" }
    (by rfl)

end Polls
